import Mathlib

/-!
A verification development for the `rindechile/analysis` batch pipeline:
a shallow embedding in Lean 4 of the progress stores, work-set resolution,
retry shell, consensus classifier and batch orchestrator, together with
theorems about their behaviour.

Conventions of the embedding:
* JavaScript numbers are modelled as `ℚ` (all arithmetic the pipeline
  performs on them — sums, products, comparisons against `0.7` — is exact
  on the values that occur).
* File-system reads are modelled by passing the file's parse outcome as an
  argument: `none` = file absent, `some none` = file present but its content
  is not parsable JSON, `some (some v)` = file present and parsed to `v`.
* Mutation of a store is modelled by a function from the store to the store;
  `new Date().toISOString()` becomes an explicit `now : String` argument.
-/

namespace Analysis

/-- `ExtractedItem` from `gemini-processor.ts`: one line item of an order. -/
structure ExtractedItem where
  descripcion : String
  cantidad : ℚ
  precio_unitario : ℚ
  deriving DecidableEq, Repr

/-- `ExtractedData` from `gemini-processor.ts`: the JSON payload Gemini returns. -/
structure ExtractedData where
  items : List ExtractedItem
  total_orden : Option ℚ
  legible : Bool
  error : Option String
  deriving DecidableEq, Repr

/-- `FileProcessResult` from `gemini-processor.ts`: outcome of extracting one file. -/
structure FileProcessResult where
  filename : String
  success : Bool
  data : Option ExtractedData
  error : Option String
  deriving DecidableEq, Repr

/-- The `marca` labels of `ProcessedOrder`: `'sobreprecio' | 'falta_datos' | 'normal'`. -/
inductive Marca where
  | sobreprecio
  | falta_datos
  | normal
  deriving DecidableEq, Repr

/-- The `confidence` levels of `ProcessedOrder`: `'alta' | 'media' | 'baja'`. -/
inductive Confidence where
  | alta
  | media
  | baja
  deriving DecidableEq, Repr

/-- The record returned by `comparAndMark`. -/
structure CompareResult where
  marca : Marca
  confidence : Confidence
  items : List ExtractedItem
  filesProcessed : ℕ
  deriving DecidableEq, Repr

/-- The filter `results.filter(r => r.success && r.data)` from `comparAndMark`. -/
def successfulOf (results : List FileProcessResult) : List FileProcessResult :=
  results.filter (fun r => r.success && r.data.isSome)

/-- `r.data!.items`: the item list of a result known to carry data
(`getD` with a junk default mirrors the non-null assertion `!`). -/
def itemsOf (r : FileProcessResult) : List ExtractedItem :=
  (r.data.getD ⟨[], none, true, none⟩).items

/-- `comparAndMark` from `gemini-processor.ts`, lines 192–242: filters the
successful results, compares their item lists for structural equality
(`JSON.stringify` equality is structural equality of the item lists), and
decides `marca`/`confidence`. -/
def comparAndMark (results : List FileProcessResult) : CompareResult :=
  let successfulResults := successfulOf results
  match successfulResults with
  | [] =>
      { marca := .falta_datos, confidence := .baja, items := [], filesProcessed := 0 }
  | r0 :: _ =>
      let itemsArrays := successfulResults.map itemsOf
      let first := itemsOf r0
      let mc : Marca × Confidence :=
        if (∀ items ∈ itemsArrays, items = first) ∧ first.length = 1 then
          (.sobreprecio, .alta)
        else if ¬ (∀ items ∈ itemsArrays, items = first) then
          (.falta_datos,
            if (successfulResults.length : ℚ) ≥ (results.length : ℚ) * (7/10) then
              .media
            else .baja)
        else
          (.normal, .alta)
      { marca := mc.1, confidence := mc.2, items := first,
        filesProcessed := successfulResults.length }

/-- An entry of `Checkpoint.failedCodes` (`scraper-utils.ts`). -/
structure FailedEntry where
  code : String
  error : String
  timestamp : String
  attempts : ℕ
  deriving DecidableEq, Repr

/-- `Checkpoint` from `scraper-utils.ts`: the session progress store.
`_processedCodesSet` is the runtime cache (not serialized); it is modelled
as an optional list whose membership is what the `Set` provides. -/
structure Checkpoint where
  processedCodes : List String
  failedCodes : List FailedEntry
  lastProcessedTimestamp : String
  totalProcessed : ℕ
  totalFailed : ℕ
  processedCodesSetCache : Option (List String)
  deriving DecidableEq, Repr

/-- `ScrapedCodesRegistry` from `scraper-utils.ts`: the permanent all-time store. -/
structure ScrapedCodesRegistry where
  codes : List String
  lastUpdated : String
  totalCount : ℕ
  deriving DecidableEq, Repr

/-- The fresh checkpoint built both by `loadCheckpoint`'s default branches and
by `main --fresh`. -/
def freshCheckpoint (now : String) : Checkpoint :=
  { processedCodes := []
    failedCodes := []
    lastProcessedTimestamp := now
    totalProcessed := 0
    totalFailed := 0
    processedCodesSetCache := none }

/-- The empty registry built by `loadScrapedCodesRegistry`'s default branches. -/
def emptyRegistry (now : String) : ScrapedCodesRegistry :=
  { codes := [], lastUpdated := now, totalCount := 0 }

/-- `loadCheckpoint` from `scraper-utils.ts`: `none` = file absent,
`some none` = unparsable content (the `catch` branch), `some (some c)` =
parsed checkpoint. Both failure shapes fall back to a fresh checkpoint. -/
def loadCheckpoint (file : Option (Option Checkpoint)) (now : String) : Checkpoint :=
  match file with
  | none => freshCheckpoint now
  | some none => freshCheckpoint now
  | some (some c) => c

/-- `loadScrapedCodesRegistry` from `scraper-utils.ts`: same shape as
`loadCheckpoint`, falling back to the empty registry on absence or
unparsable content. -/
def loadScrapedCodesRegistry (file : Option (Option ScrapedCodesRegistry))
    (now : String) : ScrapedCodesRegistry :=
  match file with
  | none => emptyRegistry now
  | some none => emptyRegistry now
  | some (some r) => r

/-- `addToScrapedRegistry` from `scraper-utils.ts`: push the code if absent. -/
def addToScrapedRegistry (registry : ScrapedCodesRegistry) (code : String)
    (now : String) : ScrapedCodesRegistry :=
  if code ∈ registry.codes then registry
  else
    { codes := registry.codes ++ [code]
      totalCount := (registry.codes ++ [code]).length
      lastUpdated := now }

/-- `isAlreadyScraped` from `scraper-utils.ts`. -/
def isAlreadyScraped (registry : ScrapedCodesRegistry) (code : String) : Bool :=
  registry.codes.contains code

/-- `getNewCodesToScrape` from `scraper-utils.ts`: keep the codes not in the
registry (the `Set` built from `registry.codes` only provides membership). -/
def getNewCodesToScrape (allCodes : List String)
    (registry : ScrapedCodesRegistry) : List String :=
  allCodes.filter (fun code => !registry.codes.contains code)

/-- `markProcessed` from `scraper-utils.ts`: lazily initialise the `Set`
cache from `processedCodes`, then push the code to both and bump
`totalProcessed` only when it is new. -/
def markProcessed (checkpoint : Checkpoint) (code : String)
    (now : String) : Checkpoint :=
  let cache := checkpoint.processedCodesSetCache.getD checkpoint.processedCodes
  if cache.contains code then
    { checkpoint with processedCodesSetCache := some cache }
  else
    { checkpoint with
      processedCodes := checkpoint.processedCodes ++ [code]
      processedCodesSetCache := some (cache ++ [code])
      totalProcessed := checkpoint.totalProcessed + 1
      lastProcessedTimestamp := now }

/-- `markFailed` from `scraper-utils.ts`: replace an existing entry for the
code, adding `attempts` to its count, or push a new entry and bump
`totalFailed`. The TS default for `attempts` is `1`. -/
def markFailed (checkpoint : Checkpoint) (code : String) (error : String)
    (now : String) (attempts : ℕ := 1) : Checkpoint :=
  match checkpoint.failedCodes.findIdx? (fun f => f.code == code) with
  | some i =>
      { checkpoint with
        failedCodes := checkpoint.failedCodes.set i
          { code := code, error := error, timestamp := now
            attempts := ((checkpoint.failedCodes.get? i).map
              FailedEntry.attempts).getD 0 + attempts } }
  | none =>
      { checkpoint with
        failedCodes := checkpoint.failedCodes ++
          [{ code := code, error := error, timestamp := now, attempts := attempts }]
        totalFailed := checkpoint.totalFailed + 1 }

/-- `isProcessed` from `scraper-utils.ts` (membership in the cached set). -/
def isProcessed (checkpoint : Checkpoint) (code : String) : Bool :=
  (checkpoint.processedCodesSetCache.getD checkpoint.processedCodes).contains code

/-- `getRetryableCodes` from `scraper-utils.ts`: failed codes with fewer than
3 recorded attempts. -/
def getRetryableCodes (checkpoint : Checkpoint) : List String :=
  (checkpoint.failedCodes.filter (fun f => f.attempts < 3)).map FailedEntry.code

/-- `exponentialBackoff` from `scraper-utils.ts`:
`min(baseDelayMs * 2^attempt, 30000)`. -/
def exponentialBackoff (attempt : ℕ) (baseDelayMs : ℕ := 1000) : ℕ :=
  min (baseDelayMs * 2 ^ attempt) 30000

/-- `isValidCode` from `scraper-utils.ts`: the regex
`^\d{3,7}-\d{1,4}-[A-Z]{2}25$` as an executable matcher. Since a digit is
never `-`, and an upper-case letter is never a digit, the greedy spans below
match the regex exactly. -/
def isValidCode (code : String) : Bool :=
  match code.toList.dropWhile Char.isDigit with
  | '-' :: rest2 =>
      (match rest2.dropWhile Char.isDigit with
       | '-' :: l1 :: l2 :: '2' :: '5' :: [] =>
           decide (3 ≤ (code.toList.takeWhile Char.isDigit).length) &&
           decide ((code.toList.takeWhile Char.isDigit).length ≤ 7) &&
           decide (1 ≤ (rest2.takeWhile Char.isDigit).length) &&
           decide ((rest2.takeWhile Char.isDigit).length ≤ 4) &&
           ('A' ≤ l1 && l1 ≤ 'Z') && ('A' ≤ l2 && l2 ≤ 'Z')
       | _ => false)
  | _ => false

/-- A row of the CSV (`csv-utils.ts`): only `chilecompra_code` matters here. -/
structure Purchase where
  chilecompra_code : String
  deriving DecidableEq, Repr

/-- `extractUniqueCodes` from `scraper-utils.ts`: trim each row's code, keep
it only when `isValidCode` accepts it, deduplicate through a `Set`, and
return the sorted array (`Array.from(set).sort()`). Insertion-ordered
`Set` + `sort()` is modelled as dedup of the kept codes followed by a
lexicographic sort. -/
def extractUniqueCodes (rows : List Purchase) : List String :=
  (((rows.map (fun row => row.chilecompra_code.trim)).filter
      (fun code => code ≠ "" && isValidCode code)).dedup).mergeSort (· ≤ ·)

/-- `PendingData` from `data-manager.ts`. -/
structure PendingData where
  codes : List String
  lastUpdated : String
  totalPending : ℕ
  deriving DecidableEq, Repr

/-- `ProcessedOrder` from `data-manager.ts`: one classification record. -/
structure ProcessedOrder where
  code : String
  marca : Marca
  items : List ExtractedItem
  total_orden : Option ℚ
  processedAt : String
  confidence : Confidence
  filesProcessed : ℕ
  deriving DecidableEq, Repr

/-- `ProcessedData` from `data-manager.ts`. -/
structure ProcessedData where
  orders : List ProcessedOrder
  totalProcessed : ℕ
  lastUpdated : String
  deriving DecidableEq, Repr

/-- `FailedCode` from `data-manager.ts`. -/
structure FailedCode where
  code : String
  error : String
  attempts : ℕ
  lastAttempt : String
  deriving DecidableEq, Repr

/-- `FailedData` from `data-manager.ts`. -/
structure FailedData where
  codes : List FailedCode
  totalFailed : ℕ
  lastUpdated : String
  deriving DecidableEq, Repr

/-- The default pending store (`loadPending`'s absent-file branch). -/
def emptyPending (now : String) : PendingData :=
  { codes := [], lastUpdated := now, totalPending := 0 }

/-- The default processed store (`loadProcessed`'s absent-file branch). -/
def emptyProcessed (now : String) : ProcessedData :=
  { orders := [], totalProcessed := 0, lastUpdated := now }

/-- The default failed store (`loadFailed`'s absent-file branch). -/
def emptyFailed (now : String) : FailedData :=
  { codes := [], totalFailed := 0, lastUpdated := now }

/-- `loadPending` from `data-manager.ts`: absent file → empty default, but the
`JSON.parse` of a present file is NOT wrapped in `try`/`catch` — an
unparsable content (`some none`) propagates as a thrown error (`Except.error`). -/
def loadPending (file : Option (Option PendingData)) (now : String) :
    Except String PendingData :=
  match file with
  | none => .ok (emptyPending now)
  | some none => .error "SyntaxError: Unexpected token in JSON"
  | some (some p) => .ok p

/-- `loadProcessed` from `data-manager.ts`: same shape as `loadPending`,
likewise without a `try`/`catch` around `JSON.parse`. -/
def loadProcessed (file : Option (Option ProcessedData)) (now : String) :
    Except String ProcessedData :=
  match file with
  | none => .ok (emptyProcessed now)
  | some none => .error "SyntaxError: Unexpected token in JSON"
  | some (some p) => .ok p

/-- `loadFailed` from `data-manager.ts`: same shape as `loadPending`,
likewise without a `try`/`catch` around `JSON.parse`. -/
def loadFailed (file : Option (Option FailedData)) (now : String) :
    Except String FailedData :=
  match file with
  | none => .ok (emptyFailed now)
  | some none => .error "SyntaxError: Unexpected token in JSON"
  | some (some f) => .ok f

/-- `savePending` from `data-manager.ts` (the in-memory effect of the write). -/
def savePending (data : PendingData) (now : String) : PendingData :=
  { data with lastUpdated := now, totalPending := data.codes.length }

/-- `saveProcessed` from `data-manager.ts`. -/
def saveProcessed (data : ProcessedData) (now : String) : ProcessedData :=
  { data with lastUpdated := now, totalProcessed := data.orders.length }

/-- `saveFailed` from `data-manager.ts`. -/
def saveFailed (data : FailedData) (now : String) : FailedData :=
  { data with lastUpdated := now, totalFailed := data.codes.length }

/-- `getPendingBatch` from `data-manager.ts`: first `batchSize` pending codes. -/
def getPendingBatch (pending : PendingData) (batchSize : ℕ) : List String :=
  pending.codes.take batchSize

/-- `removePendingCodes` from `data-manager.ts`: drop the given codes, then save. -/
def removePendingCodes (pending : PendingData) (codes : List String)
    (now : String) : PendingData :=
  savePending { pending with
    codes := pending.codes.filter (fun c => !codes.contains c) } now

/-- `addProcessedOrder` from `data-manager.ts`: if an order with the same code
already exists, do nothing (the push and the save are both skipped);
otherwise push the order and save. -/
def addProcessedOrder (processed : ProcessedData) (order : ProcessedOrder)
    (now : String) : ProcessedData :=
  if processed.orders.any (fun o => o.code == order.code) then processed
  else saveProcessed { processed with orders := processed.orders ++ [order] } now

/-- `addProcessedOrders` from `data-manager.ts`: push only the orders whose
code is not already present, then save. -/
def addProcessedOrders (processed : ProcessedData) (orders : List ProcessedOrder)
    (now : String) : ProcessedData :=
  let newOrders := orders.filter
    (fun o => !(processed.orders.map ProcessedOrder.code).contains o.code)
  saveProcessed { processed with orders := processed.orders ++ newOrders } now

/-- `addFailedCode` from `data-manager.ts`: bump an existing entry's attempts
in place (updating its error and timestamp), or push a new entry with
`attempts = 1`; then save. -/
def addFailedCode (failed : FailedData) (code : String) (error : String)
    (now : String) : FailedData :=
  match failed.codes.findIdx? (fun f => f.code == code) with
  | some i =>
      saveFailed { failed with
        codes := failed.codes.set i
          { code := code, error := error
            attempts := ((failed.codes.get? i).map FailedCode.attempts).getD 0 + 1
            lastAttempt := now } } now
  | none =>
      saveFailed { failed with
        codes := failed.codes ++
          [{ code := code, error := error, attempts := 1, lastAttempt := now }] } now

/-- `getRetryableFailed` from `data-manager.ts`. -/
def getRetryableFailed (failed : FailedData) (maxAttempts : ℕ := 3) : List String :=
  (failed.codes.filter (fun f => f.attempts < maxAttempts)).map FailedCode.code

/-- The record returned by `getStats` in `data-manager.ts`. `completion` keeps
the numerator and the divisor of the unguarded division
`processed / (pending + processed + failed) * 100` so the division-by-zero
condition is visible; `completionValue` is the `ℚ` division itself. -/
structure Stats where
  pending : ℕ
  processed : ℕ
  failed : ℕ
  total : ℕ
  completionNumerator : ℚ
  completionDivisor : ℚ
  deriving DecidableEq, Repr

/-- `getStats` from `data-manager.ts`, lines 200–212, on the three loaded
stores. -/
def getStats (pending : PendingData) (processed : ProcessedData)
    (failed : FailedData) : Stats :=
  { pending := pending.totalPending
    processed := processed.totalProcessed
    failed := failed.totalFailed
    total := pending.totalPending + processed.totalProcessed + failed.totalFailed
    completionNumerator := processed.totalProcessed
    completionDivisor :=
      (pending.totalPending : ℚ) + processed.totalProcessed + failed.totalFailed }

/-- The `completion` field of `getStats`: the division is performed with no
guard on the divisor. -/
def Stats.completion (s : Stats) : ℚ :=
  s.completionNumerator / s.completionDivisor * 100

/-- `DownloadResult` from `scraper-utils.ts`: what `processCode` returns. -/
structure DownloadResult where
  code : String
  success : Bool
  pdfCount : ℕ
  error : Option String
  directory : Option String
  deriving DecidableEq, Repr

/-- One fetch attempt of `processCode` either completes the `try` block with a
`DownloadResult` or throws (`exn`). Only a throw triggers a retry. -/
inductive AttemptOutcome where
  | ok (r : DownloadResult)
  | exn (msg : String)
  deriving DecidableEq, Repr

/-- `MAX_RETRIES` from the scraper. -/
def MAX_RETRIES : ℕ := 3

/-- `RETRY_BASE_DELAY` from the scraper. -/
def RETRY_BASE_DELAY : ℕ := 2000

/-- `processCode` from the batch scraper (`scraper-single.ts` lines 689–757):
the bounded-retry shell around one identifier's fetch. `outcomes n` is what
attempt number `n` does (the code starts at `attempt = 1`). Returns the final
`DownloadResult` together with the list of backoff delays slept between
attempts. On a throw with `attempt < MAX_RETRIES` it sleeps
`exponentialBackoff attempt RETRY_BASE_DELAY` and recurses with `attempt + 1`;
on a throw at the last attempt it returns a failure result. -/
def processCode (outcomes : ℕ → AttemptOutcome) (code : String)
    (attempt : ℕ := 1) : DownloadResult × List ℕ :=
  match outcomes attempt with
  | .ok r => (r, [])
  | .exn msg =>
      if h : attempt < MAX_RETRIES then
        let delay := exponentialBackoff attempt RETRY_BASE_DELAY
        let rec_ := processCode outcomes code (attempt + 1)
        (rec_.1, delay :: rec_.2)
      else
        ({ code := code, success := false, pdfCount := 0
           error := some ("Failed after " ++ toString MAX_RETRIES ++
             " attempts: " ++ msg)
           directory := none }, [])
  termination_by MAX_RETRIES - attempt

/-- The per-code bookkeeping of the batch scraper's `main` (lines 868–882):
a successful result is `markProcessed` + `addToScrapedRegistry`; a failed one
is `markFailed(checkpoint, code, error)` — note the call passes NO attempts
argument, so `markFailed`'s default `attempts = 1` applies. -/
def scraperMainStep (checkpoint : Checkpoint) (registry : ScrapedCodesRegistry)
    (code : String) (result : DownloadResult) (now : String) :
    Checkpoint × ScrapedCodesRegistry :=
  if result.success then
    (markProcessed checkpoint code now, addToScrapedRegistry registry code now)
  else
    (markFailed checkpoint code (result.error.getD "Unknown error") now, registry)

/-- The JSON the single-code scraper prints (`scraper-single.ts` lines 216–222),
as consumed by `process-batch.ts`. -/
structure ScraperResult where
  success : Bool
  count : ℕ
  error : Option String
  deriving DecidableEq, Repr

/-- What `processSingleCode` in `process-batch.ts` returns. -/
structure ProcResult where
  success : Bool
  order : Option ProcessedOrder
  error : Option String
  deriving DecidableEq, Repr

/-- The environment one `processSingleCode` call observes: the scraper
subprocess outcome (`.error` = `execSync` threw or its output was not JSON,
both landing in the outer `catch`), whether the code's download directory
exists, its file listing, and the Gemini extraction results. -/
structure SingleCodeRun where
  scraperOutcome : Except String ScraperResult
  dirExists : Bool
  files : List String
  geminiResults : List FileProcessResult
  deriving Repr

/-- The `ProcessedOrder` built at `process-batch.ts` lines 109–117:
`total_orden` is `comparison.items.reduce((sum, item) =>
sum + (item.precio_unitario * item.cantidad), 0)`. -/
def mkProcessedOrder (code : String) (comparison : CompareResult)
    (now : String) : ProcessedOrder :=
  { code := code
    marca := comparison.marca
    items := comparison.items
    total_orden := some (comparison.items.foldl
      (fun sum item => sum + item.precio_unitario * item.cantidad) 0)
    processedAt := now
    confidence := comparison.confidence
    filesProcessed := comparison.filesProcessed }

/-- `processSingleCode` from `process-batch.ts`, lines 45–137: run the scraper;
on scraper failure or a missing download directory return a failure; when the
directory lists ZERO files return `success: false` with error
`"No files downloaded"`; otherwise classify via `comparAndMark` and build the
order. -/
def processSingleCode (code : String) (run : SingleCodeRun)
    (now : String) : ProcResult :=
  match run.scraperOutcome with
  | .error msg =>
      { success := false, order := none, error := some ("Scraper failed: " ++ msg) }
  | .ok scraperResult =>
      if !scraperResult.success then
        { success := false, order := none, error := scraperResult.error }
      else if !run.dirExists then
        { success := false, order := none, error := some "Download directory not found" }
      else if run.files.length = 0 then
        { success := false, order := none, error := some "No files downloaded" }
      else
        let comparison := comparAndMark run.geminiResults
        { success := true
          order := some (mkProcessedOrder code comparison now)
          error := none }

/-- The state `process-batch.ts`'s `main` threads through its loop. -/
structure BatchState where
  processedData : ProcessedData
  failedData : FailedData
  processedCodes : List String
  failedCodes : List String
  deriving DecidableEq, Repr

/-- A junk order for the `result.order!` access (never used when
`result.success && result.order` holds). -/
def junkOrder : ProcessedOrder :=
  { code := "", marca := .falta_datos, items := [], total_orden := none
    processedAt := "", confidence := .baja, filesProcessed := 0 }

/-- One iteration of `main`'s loop in `process-batch.ts` (lines 163–174):
success with an order → `addProcessedOrder`; anything else →
`addFailedCode(code, result.error || 'Unknown error')`. -/
def batchMainStep (st : BatchState) (code : String) (result : ProcResult)
    (now : String) : BatchState :=
  if result.success && result.order.isSome then
    { st with
      processedData := addProcessedOrder st.processedData (result.order.getD junkOrder) now
      processedCodes := st.processedCodes ++ [code] }
  else
    { st with
      failedData := addFailedCode st.failedData code (result.error.getD "Unknown error") now
      failedCodes := st.failedCodes ++ [code] }

/-- The structural pattern exactly as the specification's words state it —
"a numeric segment, a hyphen, a numeric segment, a hyphen, two uppercase
letters, and two digits" — written for comparison against `isValidCode`
(which was translated from the source regex). -/
def claimedCodePattern (code : String) : Bool :=
  match code.toList.dropWhile Char.isDigit with
  | '-' :: rest2 =>
      (match rest2.dropWhile Char.isDigit with
       | '-' :: l1 :: l2 :: x :: y :: [] =>
           decide (1 ≤ (code.toList.takeWhile Char.isDigit).length) &&
           decide (1 ≤ (rest2.takeWhile Char.isDigit).length) &&
           ('A' ≤ l1 && l1 ≤ 'Z') && ('A' ≤ l2 && l2 ≤ 'Z') &&
           x.isDigit && y.isDigit
       | _ => false)
  | _ => false

/-- The shape the source regex `^\d{3,7}-\d{1,4}-[A-Z]{2}25$` actually
accepts, as a structural predicate: 3–7 digits, a hyphen, 1–4 digits, a
hyphen, two uppercase letters, then the literal digits `2`, `5`. -/
def ValidCodeShape (s : String) : Prop :=
  ∃ d1 d2 l1 l2, s.toList = d1 ++ '-' :: (d2 ++ '-' :: [l1, l2, '2', '5']) ∧
    (∀ c ∈ d1, c.isDigit = true) ∧ 3 ≤ d1.length ∧ d1.length ≤ 7 ∧
    (∀ c ∈ d2, c.isDigit = true) ∧ 1 ≤ d2.length ∧ d2.length ≤ 4 ∧
    ('A' ≤ l1 ∧ l1 ≤ 'Z') ∧ ('A' ≤ l2 ∧ l2 ≤ 'Z')

/-- Replace the self-reported `total_orden` of an extraction result by an
arbitrary value, leaving everything else (success, items, …) alone. Used to
show the pipeline's output total never depends on the self-reported totals. -/
def retotal (t : Option ℚ) (r : FileProcessResult) : FileProcessResult :=
  { r with data := r.data.map (fun d => { d with total_orden := t }) }

/-- The two progress stores the batch scraper's run owns. -/
structure Stores where
  checkpoint : Checkpoint
  registry : ScrapedCodesRegistry
  deriving DecidableEq, Repr

/-- One store operation of the run: `markProcessed`, `markFailed` (with its
`attempts` argument, default `1` in the source) or `addToScrapedRegistry`. -/
inductive StoreOp where
  | proc (code now : String)
  | fail (code error now : String) (attempts : ℕ)
  | reg (code now : String)
  deriving DecidableEq, Repr

/-- Apply one store operation. -/
def applyOp (s : Stores) : StoreOp → Stores
  | .proc code now => { s with checkpoint := markProcessed s.checkpoint code now }
  | .fail code error now a =>
      { s with checkpoint := markFailed s.checkpoint code error now a }
  | .reg code now => { s with registry := addToScrapedRegistry s.registry code now }

/-- Apply a sequence of store operations, left to right. -/
def applyOps (s : Stores) (ops : List StoreOp) : Stores :=
  ops.foldl applyOp s

/-- The progress-store invariant of `Checkpoint`: the counters agree with the
store sizes, failed entries are unique per code, and the runtime `Set` cache
(when initialised) agrees with `processedCodes` on membership. -/
def CheckpointInv (c : Checkpoint) : Prop :=
  c.totalProcessed = c.processedCodes.length ∧
  c.totalFailed = c.failedCodes.length ∧
  (c.failedCodes.map FailedEntry.code).Nodup ∧
  ∀ cache, c.processedCodesSetCache = some cache →
    ∀ x, x ∈ cache ↔ x ∈ c.processedCodes

/-- The joint invariant: checkpoint invariant plus duplicate-freedom of the
registry. -/
def StoresInv (s : Stores) : Prop :=
  CheckpointInv s.checkpoint ∧ s.registry.codes.Nodup

/-- C10: `getStats` computes `completion` as
`processed / (pending + processed + failed) * 100` with no guard on the
divisor, and the all-empty store state — exactly what the loaders return when
no store file exists yet — makes that divisor `0`, so the completion
computation divides zero by zero. -/
theorem C10_getStats_unguarded_division (now : String) :
    loadPending none now = .ok (emptyPending now) ∧
    loadProcessed none now = .ok (emptyProcessed now) ∧
    loadFailed none now = .ok (emptyFailed now) ∧
    (getStats (emptyPending now) (emptyProcessed now) (emptyFailed now)).total = 0 ∧
    (getStats (emptyPending now) (emptyProcessed now) (emptyFailed now)).completionNumerator = 0 ∧
    (getStats (emptyPending now) (emptyProcessed now) (emptyFailed now)).completionDivisor = 0 ∧
    ∀ s : Stats, s.completion = s.completionNumerator / s.completionDivisor * 100 :=
  ⟨rfl, rfl, rfl, rfl,
   by norm_num [getStats, emptyPending, emptyProcessed, emptyFailed],
   by norm_num [getStats, emptyPending, emptyProcessed, emptyFailed],
   fun _ => rfl⟩

/-- C4 counterexample: loading a pending file whose content is not parsable
JSON does NOT return the empty default — `loadPending` has no `try`/`catch`
around `JSON.parse`, so the parse error is thrown. -/
theorem C4_counterexample_loadPending_throws :
    loadPending (some none) "2026-01-01" =
      Except.error "SyntaxError: Unexpected token in JSON" ∧
    loadPending (some none) "2026-01-01" ≠ Except.ok (emptyPending "2026-01-01") :=
  ⟨rfl, fun h => Except.noConfusion h⟩

/-- C4 amended: only the registry and session-checkpoint loaders fall back to
the empty default on an absent or unparsable file; the pending, processed and
failed batch-file loaders return the default on an absent file but propagate
the parse error (a thrown exception) on unparsable content. -/
theorem C4_amended_corrupt_load (now : String) :
    loadCheckpoint none now = freshCheckpoint now ∧
    loadCheckpoint (some none) now = freshCheckpoint now ∧
    loadScrapedCodesRegistry none now = emptyRegistry now ∧
    loadScrapedCodesRegistry (some none) now = emptyRegistry now ∧
    loadPending none now = .ok (emptyPending now) ∧
    loadProcessed none now = .ok (emptyProcessed now) ∧
    loadFailed none now = .ok (emptyFailed now) ∧
    (∃ e, loadPending (some none) now = .error e) ∧
    (∃ e, loadProcessed (some none) now = .error e) ∧
    (∃ e, loadFailed (some none) now = .error e) :=
  ⟨rfl, rfl, rfl, rfl, rfl, rfl, rfl, ⟨_, rfl⟩, ⟨_, rfl⟩, ⟨_, rfl⟩⟩

/-- C9 counterexample: `3506-434-SE24` matches the claimed structural pattern
(numeric segment, hyphen, numeric segment, hyphen, two uppercase letters, two
digits) yet `isValidCode` rejects it — the source regex requires the final two
digits to be the literal `25`. -/
theorem C9_counterexample_pattern_mismatch :
    claimedCodePattern "3506-434-SE24" = true ∧
    isValidCode "3506-434-SE24" = false :=
  ⟨by decide, by decide⟩

/-- C8 counterexample: re-adding a classification for an identifier that
already has a stored record leaves the OLD record in the store — the new
record is discarded, not an overwrite. -/
theorem C8_counterexample_no_overwrite :
    addProcessedOrder
      { orders := [{ code := "3506-434-SE25", marca := .normal, items := [],
                     total_orden := some 10, processedAt := "t0",
                     confidence := .alta, filesProcessed := 2 }],
        totalProcessed := 1, lastUpdated := "t0" }
      { code := "3506-434-SE25", marca := .sobreprecio, items := [],
        total_orden := some 99, processedAt := "t2",
        confidence := .media, filesProcessed := 3 }
      "t2"
    = { orders := [{ code := "3506-434-SE25", marca := .normal, items := [],
                     total_orden := some 10, processedAt := "t0",
                     confidence := .alta, filesProcessed := 2 }],
        totalProcessed := 1, lastUpdated := "t0" } ∧
    Marca.normal ≠ Marca.sobreprecio :=
  ⟨rfl, fun h => Marca.noConfusion h⟩

/-- C1: an identifier whose fetch completes successfully with zero documents
is NOT treated as a terminal success by the batch pipeline. The fetcher
reports `success = true` with `pdfCount = 0`; `processSingleCode` then turns
the empty download directory into the failure `"No files downloaded"`; the
coordinator records the identifier in the failed store (not the processed
store); and the failed entry is retryable, so the identifier will be retried. -/
theorem C1_zero_document_success_marked_failed :
    processCode
      (fun _ => .ok { code := "3506-434-SE25", success := true, pdfCount := 0,
                      error := none, directory := some "downloads/3506-434-SE25" })
      "3506-434-SE25"
      = ({ code := "3506-434-SE25", success := true, pdfCount := 0,
           error := none, directory := some "downloads/3506-434-SE25" }, []) ∧
    processSingleCode "3506-434-SE25"
      { scraperOutcome := .ok { success := true, count := 0, error := none },
        dirExists := true, files := [], geminiResults := [] } "t1"
      = { success := false, order := none, error := some "No files downloaded" } ∧
    batchMainStep
      { processedData := emptyProcessed "t0", failedData := emptyFailed "t0",
        processedCodes := [], failedCodes := [] }
      "3506-434-SE25"
      { success := false, order := none, error := some "No files downloaded" }
      "t1"
      = { processedData := emptyProcessed "t0"
          failedData := { codes := [{ code := "3506-434-SE25",
                                      error := "No files downloaded",
                                      attempts := 1, lastAttempt := "t1" }],
                          totalFailed := 1, lastUpdated := "t1" }
          processedCodes := [], failedCodes := ["3506-434-SE25"] } ∧
    getRetryableFailed
      { codes := [{ code := "3506-434-SE25", error := "No files downloaded",
                    attempts := 1, lastAttempt := "t1" }],
        totalFailed := 1, lastUpdated := "t1" }
      = ["3506-434-SE25"] :=
  ⟨by simp [processCode], rfl, rfl, rfl⟩

/-- C3 counterexample: an identifier failing all three fetch attempts is
recorded through `markFailed(checkpoint, code, error)` — called WITHOUT an
attempts argument — so the single Recorded Failure entry carries
`attempts = 1`, not `attempts = 3` (the in-run attempt count survives only
inside the error message). -/
theorem C3_counterexample_attempts_recorded_as_one :
    ((scraperMainStep (freshCheckpoint "t0") (emptyRegistry "t0") "100-1-SE25"
        (processCode (fun _ => .exn "net down") "100-1-SE25").1
        "t1").1.failedCodes.map FailedEntry.attempts = [1] ∧
      (1 : ℕ) ≠ 3) ∧
    (processCode (fun _ => .exn "net down") "100-1-SE25").1.error
      = some "Failed after 3 attempts: net down" :=
  ⟨⟨by simp [processCode, MAX_RETRIES, scraperMainStep, markFailed,
        freshCheckpoint, emptyRegistry],
    by decide⟩,
   by simp [processCode, MAX_RETRIES]; rfl⟩

/-- C5: work-set resolution is `allCodes` filtered to the codes not in the
registry, it preserves the input's relative order (the result — and any
sample-mode truncation of it — is a sublist of `allCodes`), and it is
deterministic. -/
theorem C5_work_set_resolution (allCodes : List String)
    (registry : ScrapedCodesRegistry) (n : ℕ) :
    getNewCodesToScrape allCodes registry
      = allCodes.filter (fun c => !decide (c ∈ registry.codes)) ∧
    (∀ c, c ∈ getNewCodesToScrape allCodes registry ↔
        c ∈ allCodes ∧ c ∉ registry.codes) ∧
    (getNewCodesToScrape allCodes registry).Sublist allCodes ∧
    ((getNewCodesToScrape allCodes registry).take n).Sublist allCodes ∧
    getNewCodesToScrape allCodes registry = getNewCodesToScrape allCodes registry := by
  have hf : getNewCodesToScrape allCodes registry
      = allCodes.filter (fun c => !decide (c ∈ registry.codes)) := by
    unfold getNewCodesToScrape
    apply List.filter_congr
    intro c _
    show (!List.elem c registry.codes) = !decide (c ∈ registry.codes)
    rw [List.elem_eq_mem]
  refine ⟨hf, ?_, ?_, ?_, rfl⟩
  · intro c
    rw [hf]
    simp [List.mem_filter]
  · exact List.filter_sublist _
  · exact (List.take_sublist _ _).trans (List.filter_sublist _)

/-- The running sum `reduce((sum, item) => sum + unitPrice * qty, 0)` equals
the sum of `qty * unitPrice` over the items. -/
theorem foldl_price_sum (l : List ExtractedItem) (init : ℚ) :
    l.foldl (fun sum item => sum + item.precio_unitario * item.cantidad) init
      = init + (l.map (fun i => i.cantidad * i.precio_unitario)).sum := by
  induction l generalizing init with
  | nil => simp
  | cons a t ih => simp [ih]; ring

/-- `itemsOf` ignores the self-reported total. -/
theorem itemsOf_retotal (t : Option ℚ) (r : FileProcessResult) :
    itemsOf (retotal t r) = itemsOf r := by
  cases hr : r.data <;> simp [itemsOf, retotal, hr]

/-- The successful-result filter commutes with retotaling. -/
theorem successfulOf_retotal (t : Option ℚ) (results : List FileProcessResult) :
    successfulOf (results.map (retotal t)) = (successfulOf results).map (retotal t) := by
  unfold successfulOf
  rw [List.filter_map]
  congr 1
  apply List.filter_congr
  intro r _
  cases hr : r.data <;> simp [retotal, Function.comp, hr]

/-- `comparAndMark` is invariant under replacing every extraction's
self-reported `total_orden`. -/
theorem comparAndMark_retotal (t : Option ℚ) (results : List FileProcessResult) :
    comparAndMark (results.map (retotal t)) = comparAndMark results := by
  unfold comparAndMark
  rw [successfulOf_retotal]
  have hmapitems : ∀ l : List FileProcessResult,
      (l.map (retotal t)).map itemsOf = l.map itemsOf := by
    intro l
    rw [List.map_map]
    exact List.map_congr_left (fun r _ => itemsOf_retotal t r)
  cases h : successfulOf results with
  | nil => simp
  | cons r0 rest =>
      simp only [List.map_cons]
      have hlen : (results.map (retotal t)).length = results.length :=
        List.length_map _ _
      have hlen2 : ((rest.map (retotal t))).length = rest.length :=
        List.length_map _ _
      have harr : (r0 :: rest).map itemsOf
          = itemsOf r0 :: rest.map itemsOf := rfl
      have harr2 : ((retotal t r0) :: rest.map (retotal t)).map itemsOf
          = itemsOf r0 :: rest.map itemsOf := by
        simp [itemsOf_retotal]
      simp [harr2, itemsOf_retotal, hlen, hlen2]

/-- C7: the classification's `total_orden` is recomputed as
Σ `cantidad × precio_unitario` over the output items, and the whole produced
order — in particular its total — is unchanged when every extraction's
self-reported `total_orden` is replaced by an arbitrary value: the output
total is never taken from the extractions' self-reported totals. -/
theorem C7_total_orden_recomputed (code : String)
    (results : List FileProcessResult) (now : String) (t : Option ℚ) :
    (mkProcessedOrder code (comparAndMark results) now).total_orden
      = some (((mkProcessedOrder code (comparAndMark results) now).items.map
          (fun i => i.cantidad * i.precio_unitario)).sum) ∧
    mkProcessedOrder code (comparAndMark (results.map (retotal t))) now
      = mkProcessedOrder code (comparAndMark results) now := by
  constructor
  · simp [mkProcessedOrder, foldl_price_sum]
  · rw [comparAndMark_retotal]

/-- C8 amended: when a record for the identifier is already stored, a new
classification is discarded — `addProcessedOrder` leaves the store exactly as
it was (first write wins, no overwrite and no merge), and `addProcessedOrders`
likewise filters the new order out. -/
theorem C8_amended_first_write_wins (processed : ProcessedData)
    (order : ProcessedOrder) (now now' : String)
    (h : order.code ∈ processed.orders.map ProcessedOrder.code) :
    addProcessedOrder processed order now = processed ∧
    (addProcessedOrders processed [order] now').orders = processed.orders := by
  have hany : processed.orders.any (fun o => o.code == order.code) = true := by
    rw [List.any_eq_true]
    rcases List.mem_map.mp h with ⟨o, ho, hco⟩
    exact ⟨o, ho, by simp [hco]⟩
  have hcont : (processed.orders.map ProcessedOrder.code).contains order.code = true := by
    show List.elem order.code _ = true
    rw [List.elem_eq_mem]
    simpa using h
  constructor
  · simp [addProcessedOrder, hany]
  · have hx : ∃ x ∈ processed.orders, x.code = order.code := by
      rcases List.mem_map.mp h with ⟨o, ho, hco⟩
      exact ⟨o, ho, hco⟩
    simp [addProcessedOrders, saveProcessed, hcont, hx]

/-- C8 witness: a concrete store holding a record for `3506-434-SE25`
absorbs a second record for the same identifier without change. -/
theorem C8_amended_first_write_wins_witness :
    addProcessedOrder
      { orders := [{ code := "3506-434-SE25", marca := .normal, items := [],
                     total_orden := some 10, processedAt := "t0",
                     confidence := .alta, filesProcessed := 2 }],
        totalProcessed := 1, lastUpdated := "t0" }
      { code := "3506-434-SE25", marca := .sobreprecio, items := [],
        total_orden := some 99, processedAt := "t2",
        confidence := .media, filesProcessed := 3 }
      "t2"
    = { orders := [{ code := "3506-434-SE25", marca := .normal, items := [],
                     total_orden := some 10, processedAt := "t0",
                     confidence := .alta, filesProcessed := 2 }],
        totalProcessed := 1, lastUpdated := "t0" } ∧
    (addProcessedOrders
      { orders := [{ code := "3506-434-SE25", marca := .normal, items := [],
                     total_orden := some 10, processedAt := "t0",
                     confidence := .alta, filesProcessed := 2 }],
        totalProcessed := 1, lastUpdated := "t0" }
      [{ code := "3506-434-SE25", marca := .sobreprecio, items := [],
         total_orden := some 99, processedAt := "t2",
         confidence := .media, filesProcessed := 3 }]
      "t2").orders
    = [{ code := "3506-434-SE25", marca := .normal, items := [],
         total_orden := some 10, processedAt := "t0",
         confidence := .alta, filesProcessed := 2 }] :=
  C8_amended_first_write_wins _ _ "t2" "t2" (by decide)

/-- C3 amended: an identifier failing all three consecutive fetch attempts
(with backoff delays `exponentialBackoff 1` and `exponentialBackoff 2`
between them) is recorded exactly once in the session checkpoint's failed
store, and — because the orchestrator calls `markFailed` without an attempts
argument — the recorded entry carries `attempts = 1`; the attempt count `3`
survives only in the error message. The registry is untouched. -/
theorem C3_amended_single_entry_attempts_one (outcomes : ℕ → AttemptOutcome)
    (msgs : ℕ → String) (ck : Checkpoint) (reg : ScrapedCodesRegistry)
    (code t : String)
    (hout : ∀ n, outcomes n = .exn (msgs n))
    (hnew : ∀ f ∈ ck.failedCodes, f.code ≠ code) :
    (processCode outcomes code).1.success = false ∧
    (processCode outcomes code).2
      = [exponentialBackoff 1 RETRY_BASE_DELAY, exponentialBackoff 2 RETRY_BASE_DELAY] ∧
    (scraperMainStep ck reg code (processCode outcomes code).1 t).1.failedCodes
      = ck.failedCodes ++
        [{ code := code, error := "Failed after 3 attempts: " ++ msgs 3,
           timestamp := t, attempts := 1 }] ∧
    (scraperMainStep ck reg code (processCode outcomes code).1 t).1.totalFailed
      = ck.totalFailed + 1 ∧
    (scraperMainStep ck reg code (processCode outcomes code).1 t).2 = reg := by
  have hpc : processCode outcomes code =
      ({ code := code, success := false, pdfCount := 0,
         error := some ("Failed after 3 attempts: " ++ msgs 3), directory := none },
       [exponentialBackoff 1 RETRY_BASE_DELAY, exponentialBackoff 2 RETRY_BASE_DELAY]) := by
    simp [processCode, hout 1, hout 2, hout 3, MAX_RETRIES]
    rw [show ("Failed after " ++ toString 3 ++ " attempts: ")
        = "Failed after 3 attempts: " from rfl]
  have hidx : ck.failedCodes.findIdx? (fun f => f.code == code) = none :=
    List.findIdx?_eq_none_iff.mpr
      (fun f hf => beq_eq_false_iff_ne.mpr (hnew f hf))
  rw [hpc]
  refine ⟨rfl, rfl, ?_, ?_, rfl⟩
  · simp [scraperMainStep, markFailed, hidx]
  · simp [scraperMainStep, markFailed, hidx]

/-- C3 witness: the amended behaviour at a concrete always-failing fetch. -/
theorem C3_amended_single_entry_attempts_one_witness :
    (processCode (fun _ => AttemptOutcome.exn "net down") "100-1-SE25").1.success
        = false ∧
    (processCode (fun _ => AttemptOutcome.exn "net down") "100-1-SE25").2
      = [exponentialBackoff 1 RETRY_BASE_DELAY, exponentialBackoff 2 RETRY_BASE_DELAY] ∧
    (scraperMainStep (freshCheckpoint "t0") (emptyRegistry "t0") "100-1-SE25"
        (processCode (fun _ => AttemptOutcome.exn "net down") "100-1-SE25").1
        "t1").1.failedCodes
      = (freshCheckpoint "t0").failedCodes ++
        [{ code := "100-1-SE25", error := "Failed after 3 attempts: " ++ "net down",
           timestamp := "t1", attempts := 1 }] ∧
    (scraperMainStep (freshCheckpoint "t0") (emptyRegistry "t0") "100-1-SE25"
        (processCode (fun _ => AttemptOutcome.exn "net down") "100-1-SE25").1
        "t1").1.totalFailed
      = (freshCheckpoint "t0").totalFailed + 1 ∧
    (scraperMainStep (freshCheckpoint "t0") (emptyRegistry "t0") "100-1-SE25"
        (processCode (fun _ => AttemptOutcome.exn "net down") "100-1-SE25").1
        "t1").2 = emptyRegistry "t0" :=
  C3_amended_single_entry_attempts_one (fun _ => .exn "net down")
    (fun _ => "net down") (freshCheckpoint "t0") (emptyRegistry "t0")
    "100-1-SE25" "t1" (fun _ => rfl) (by simp [freshCheckpoint])

/-- C2: the consensus classifier's case analysis. No successful result →
`falta_datos`/`baja` with empty items and 0 files; all successful item lists
equal with exactly one item → `sobreprecio`/`alta`; not all equal →
`falta_datos`, `media` exactly when |successful| / |results| ≥ 0.7 and `baja`
otherwise; all equal with more than one item → `normal`/`alta`; and in every
non-empty case the returned items are the first successful result's item list
(and `filesProcessed` the number of successful results). -/
theorem C2_consensus_classifier (results : List FileProcessResult) :
    (successfulOf results = [] →
      comparAndMark results
        = { marca := .falta_datos, confidence := .baja, items := [],
            filesProcessed := 0 }) ∧
    (∀ r0 rest, successfulOf results = r0 :: rest →
      ((comparAndMark results).items = itemsOf r0 ∧
       (comparAndMark results).filesProcessed = (successfulOf results).length) ∧
      ((∀ r ∈ successfulOf results, itemsOf r = itemsOf r0) →
        (itemsOf r0).length = 1 →
        (comparAndMark results).marca = .sobreprecio ∧
        (comparAndMark results).confidence = .alta) ∧
      ((¬ ∀ r ∈ successfulOf results, itemsOf r = itemsOf r0) →
        (comparAndMark results).marca = .falta_datos ∧
        ((comparAndMark results).confidence = .media ↔
          ((successfulOf results).length : ℚ) / (results.length : ℚ) ≥ 7/10) ∧
        ((comparAndMark results).confidence = .baja ↔
          ¬ (((successfulOf results).length : ℚ) / (results.length : ℚ) ≥ 7/10))) ∧
      ((∀ r ∈ successfulOf results, itemsOf r = itemsOf r0) →
        1 < (itemsOf r0).length →
        (comparAndMark results).marca = .normal ∧
        (comparAndMark results).confidence = .alta)) := by
  refine ⟨fun h => by simp [comparAndMark, h], ?_⟩
  intro r0 rest h
  have hr0 : r0 ∈ results := by
    have hm : r0 ∈ successfulOf results := h ▸ List.mem_cons_self r0 rest
    exact (List.filter_sublist results).subset hm
  have hpos : (0:ℚ) < (results.length : ℚ) := by
    have := List.length_pos.mpr (List.ne_nil_of_mem hr0)
    exact_mod_cast this
  have hratio : ∀ s : ℕ, ((s:ℚ) ≥ (results.length : ℚ) * (7/10)) ↔
      ((s:ℚ) / (results.length:ℚ) ≥ 7/10) := by
    intro s
    rw [ge_iff_le, ge_iff_le, le_div_iff₀ hpos, mul_comm]
  have hmapiff : (∀ items ∈ (r0::rest).map itemsOf, items = itemsOf r0) ↔
      (∀ r ∈ successfulOf results, itemsOf r = itemsOf r0) := by
    rw [List.forall_mem_map, h]
  refine ⟨?_, ?_, ?_, ?_⟩
  · constructor
    · simp only [comparAndMark, h]
    · simp only [comparAndMark, h]
  · intro hall hone
    have hif : (∀ items ∈ (r0::rest).map itemsOf, items = itemsOf r0) ∧
        (itemsOf r0).length = 1 := ⟨hmapiff.mpr hall, hone⟩
    constructor
    · simp only [comparAndMark, h]
      rw [if_pos hif]
    · simp only [comparAndMark, h]
      rw [if_pos hif]
  · intro hnall
    have hn : ¬ ((∀ items ∈ (r0::rest).map itemsOf, items = itemsOf r0) ∧
        (itemsOf r0).length = 1) := fun hc => hnall (hmapiff.mp hc.1)
    have hn2 : ¬ (∀ items ∈ (r0::rest).map itemsOf, items = itemsOf r0) :=
      fun hc => hnall (hmapiff.mp hc)
    refine ⟨?_, ?_, ?_⟩
    · simp only [comparAndMark, h]
      rw [if_neg hn, if_pos hn2]
    · simp only [comparAndMark, h]
      rw [if_neg hn, if_pos hn2]
      by_cases hc : ((r0::rest).length : ℚ) ≥ (results.length : ℚ) * (7/10)
      · rw [if_pos hc]
        exact iff_of_true rfl (by rw [← h] at hc ⊢; exact (hratio _).mp hc)
      · rw [if_neg hc]
        refine iff_of_false (by simp) (fun hr => hc ?_)
        rw [← h] at hr ⊢
        exact (hratio _).mpr hr
    · simp only [comparAndMark, h]
      rw [if_neg hn, if_pos hn2]
      by_cases hc : ((r0::rest).length : ℚ) ≥ (results.length : ℚ) * (7/10)
      · rw [if_pos hc]
        refine iff_of_false (by simp) (fun hr => hr ?_)
        rw [← h] at hc ⊢
        exact (hratio _).mp hc
      · rw [if_neg hc]
        refine iff_of_true rfl (fun hr => hc ?_)
        rw [← h] at hr ⊢
        exact (hratio _).mpr hr
  · intro hall hlen
    have hn : ¬ ((∀ items ∈ (r0::rest).map itemsOf, items = itemsOf r0) ∧
        (itemsOf r0).length = 1) := fun hc => by omega
    have hn2 : ¬ ¬ (∀ items ∈ (r0::rest).map itemsOf, items = itemsOf r0) :=
      not_not_intro (hmapiff.mpr hall)
    constructor
    · simp only [comparAndMark, h]
      rw [if_neg hn, if_neg hn2]
    · simp only [comparAndMark, h]
      rw [if_neg hn, if_neg hn2]

/-- C2 witness: the empty-input case evaluated concretely. -/
theorem C2_consensus_classifier_witness :
    comparAndMark []
      = { marca := .falta_datos, confidence := .baja, items := [],
          filesProcessed := 0 } :=
  (C2_consensus_classifier []).1 rfl



theorem findIdx?_some_spec {α : Type} (p : α → Bool) (l : List α) (i : ℕ)
    (h : l.findIdx? p = some i) : ∃ x, l[i]? = some x ∧ p x = true := by
  induction l generalizing i with
  | nil => simp [List.findIdx?_nil] at h
  | cons a t ih =>
      rw [List.findIdx?_cons] at h
      by_cases hp : p a = true
      · rw [if_pos hp] at h
        cases h
        exact ⟨a, by simp, hp⟩
      · rw [if_neg hp, List.findIdx?_succ] at h
        cases hfind : t.findIdx? p with
        | none => rw [hfind] at h; simp at h
        | some j =>
            rw [hfind] at h
            simp only [Option.map_some'] at h
            cases h
            rcases ih j hfind with ⟨x, hx, hpx⟩
            exact ⟨x, by simpa using hx, hpx⟩

theorem set_getElem?_self {α : Type} (l : List α) (i : ℕ) (x : α)
    (h : l[i]? = some x) : l.set i x = l := by
  induction l generalizing i with
  | nil => simp at h
  | cons a t ih =>
      cases i with
      | zero => simp at h; simp [h]
      | succ j =>
          simp at h
          simp [List.set_cons_succ, ih j h]

theorem checkpointInv_markProcessed (ck : Checkpoint) (code now : String)
    (h : CheckpointInv ck) : CheckpointInv (markProcessed ck code now) := by
  obtain ⟨h1, h2, h3, h4⟩ := h
  have hcachemem : ∀ x, x ∈ ck.processedCodesSetCache.getD ck.processedCodes ↔
      x ∈ ck.processedCodes := by
    intro x
    cases hh : ck.processedCodesSetCache with
    | none => simp [hh]
    | some c0 => simpa [hh] using h4 c0 hh x
  unfold markProcessed
  by_cases hc : (ck.processedCodesSetCache.getD ck.processedCodes).contains code
  · rw [if_pos hc]
    refine ⟨h1, h2, h3, ?_⟩
    intro cache hcache x
    simp only [Option.some.injEq] at hcache
    subst hcache
    exact hcachemem x
  · rw [if_neg hc]
    refine ⟨by simp [h1], h2, h3, ?_⟩
    intro cache hcache x
    simp only [Option.some.injEq] at hcache
    subst hcache
    simp [hcachemem x]

theorem markProcessed_idem (ck : Checkpoint) (code t1 t2 : String) :
    markProcessed (markProcessed ck code t1) code t2 = markProcessed ck code t1 := by
  unfold markProcessed
  by_cases hc : code ∈ ck.processedCodesSetCache.getD ck.processedCodes
  · simp [hc]
  · simp [hc]

theorem markProcessed_total_new (ck : Checkpoint) (code t : String)
    (h : isProcessed ck code = false) :
    (markProcessed ck code t).totalProcessed = ck.totalProcessed + 1 := by
  unfold isProcessed at h
  have h2 : code ∉ ck.processedCodesSetCache.getD ck.processedCodes := by
    simpa using h
  unfold markProcessed
  simp [h2]

theorem checkpointInv_markFailed (ck : Checkpoint) (code e t : String) (a : ℕ)
    (h : CheckpointInv ck) : CheckpointInv (markFailed ck code e t a) := by
  obtain ⟨h1, h2, h3, h4⟩ := h
  unfold markFailed
  cases hidx : ck.failedCodes.findIdx? (fun f => f.code == code) with
  | none =>
      have hnotin : ∀ f ∈ ck.failedCodes, (f.code == code) = false :=
        List.findIdx?_eq_none_iff.mp hidx
      refine ⟨h1, by simp [h2], ?_, h4⟩
      simp only [List.map_append, List.map_cons, List.map_nil]
      rw [List.nodup_append]
      refine ⟨h3, List.nodup_singleton _, ?_⟩
      intro x hx hx2
      simp at hx2
      rcases List.mem_map.mp hx with ⟨f, hf, hfc⟩
      have := hnotin f hf
      rw [beq_eq_false_iff_ne] at this
      exact this (hfc.trans hx2)
  | some i =>
      rcases findIdx?_some_spec _ _ _ hidx with ⟨f0, hf0, hpf0⟩
      have hf0code : f0.code = code := by simpa using hpf0
      refine ⟨h1, by simp [h2], ?_, h4⟩
      have hmap : (ck.failedCodes.set i
          { code := code, error := e, timestamp := t,
            attempts := ((ck.failedCodes.get? i).map FailedEntry.attempts).getD 0 + a }).map
            FailedEntry.code = ck.failedCodes.map FailedEntry.code := by
        rw [List.map_set]
        apply set_getElem?_self
        rw [List.getElem?_map, hf0]
        simp [hf0code]
      rw [hmap]
      exact h3

theorem addToScrapedRegistry_codes (reg : ScrapedCodesRegistry) (code t : String) :
    ((addToScrapedRegistry reg code t).codes = reg.codes ∧ code ∈ reg.codes) ∨
    ((addToScrapedRegistry reg code t).codes = reg.codes ++ [code] ∧
      code ∉ reg.codes) := by
  unfold addToScrapedRegistry
  by_cases hc : code ∈ reg.codes
  · exact Or.inl ⟨by simp [hc], hc⟩
  · exact Or.inr ⟨by simp [hc], hc⟩

theorem addToScrapedRegistry_nodup (reg : ScrapedCodesRegistry) (code t : String)
    (h : reg.codes.Nodup) : (addToScrapedRegistry reg code t).codes.Nodup := by
  rcases addToScrapedRegistry_codes reg code t with ⟨he, _⟩ | ⟨he, hn⟩
  · rw [he]; exact h
  · rw [he, List.nodup_append]
    exact ⟨h, List.nodup_singleton _, by simpa using hn⟩

theorem addToScrapedRegistry_mono (reg : ScrapedCodesRegistry) (code t : String) :
    ∀ c ∈ reg.codes, c ∈ (addToScrapedRegistry reg code t).codes := by
  intro c hc
  rcases addToScrapedRegistry_codes reg code t with ⟨he, _⟩ | ⟨he, _⟩ <;>
    simp [he, hc]

theorem storesInv_applyOps (ops : List StoreOp) (s : Stores) (h : StoresInv s) :
    StoresInv (applyOps s ops) ∧
    ∀ c ∈ s.registry.codes, c ∈ (applyOps s ops).registry.codes := by
  induction ops generalizing s with
  | nil => exact ⟨h, fun c hc => hc⟩
  | cons op rest ih =>
      have hstep : StoresInv (applyOp s op) ∧
          ∀ c ∈ s.registry.codes, c ∈ (applyOp s op).registry.codes := by
        cases op with
        | proc code now =>
            exact ⟨⟨checkpointInv_markProcessed _ code now h.1, h.2⟩,
              fun c hc => hc⟩
        | fail code e now a =>
            exact ⟨⟨checkpointInv_markFailed _ code e now a h.1, h.2⟩,
              fun c hc => hc⟩
        | reg code now =>
            exact ⟨⟨h.1, addToScrapedRegistry_nodup _ code now h.2⟩,
              addToScrapedRegistry_mono _ code now⟩
      obtain ⟨h1, h2⟩ := hstep
      obtain ⟨h3, h4⟩ := ih (applyOp s op) h1
      exact ⟨h3, fun c hc => h4 c (h2 c hc)⟩

theorem markFailed_inplace (ck : Checkpoint) (code e t : String) (a i : ℕ)
    (hidx : ck.failedCodes.findIdx? (fun f => f.code == code) = some i) :
    (markFailed ck code e t a).failedCodes.length = ck.failedCodes.length ∧
    (markFailed ck code e t a).totalFailed = ck.totalFailed ∧
    ((markFailed ck code e t a).failedCodes.get? i).map FailedEntry.attempts
      = (ck.failedCodes.get? i).map (fun f => f.attempts + a) := by
  rcases findIdx?_some_spec _ _ _ hidx with ⟨f0, hf0, hpf0⟩
  have hlt : i < ck.failedCodes.length := by
    rcases List.getElem?_eq_some.mp hf0 with ⟨hl, _⟩
    exact hl
  unfold markFailed
  rw [hidx]
  refine ⟨by simp, rfl, ?_⟩
  simp only [List.get?_eq_getElem?]
  rw [List.getElem?_set_self hlt, hf0]
  simp

/-- C6: the store operations preserve the progress-store invariants:
`totalProcessed = |processedCodes|`, `totalFailed = |failedCodes|`, failed
entries stay unique and the registry stays duplicate-free and only ever grows
under any sequence of operations; a repeated `markProcessed` of the same
identifier is a no-op (so it adds exactly 1 to `totalProcessed` in total,
the 1 coming from the first call on an unprocessed identifier); and a repeated
`markFailed` updates the existing entry in place — same number of entries,
same `totalFailed`, attempts incremented — instead of creating a duplicate. -/
theorem C6_progress_store_invariants :
    (∀ s ops, StoresInv s →
        StoresInv (applyOps s ops) ∧
        ∀ c ∈ s.registry.codes, c ∈ (applyOps s ops).registry.codes) ∧
    (∀ ck code t1 t2, markProcessed (markProcessed ck code t1) code t2
        = markProcessed ck code t1) ∧
    (∀ ck code t, isProcessed ck code = false →
        (markProcessed ck code t).totalProcessed = ck.totalProcessed + 1) ∧
    (∀ ck code e t a i,
        ck.failedCodes.findIdx? (fun f => f.code == code) = some i →
        (markFailed ck code e t a).failedCodes.length
            = ck.failedCodes.length ∧
        (markFailed ck code e t a).totalFailed = ck.totalFailed ∧
        ((markFailed ck code e t a).failedCodes.get? i).map FailedEntry.attempts
          = (ck.failedCodes.get? i).map (fun f => f.attempts + a)) ∧
    (∀ reg code t,
        ((addToScrapedRegistry reg code t).codes = reg.codes ∧
          code ∈ reg.codes) ∨
        ((addToScrapedRegistry reg code t).codes = reg.codes ++ [code] ∧
          code ∉ reg.codes)) :=
  ⟨fun s ops h => storesInv_applyOps ops s h,
   markProcessed_idem,
   markProcessed_total_new,
   fun ck code e t a i h => markFailed_inplace ck code e t a i h,
   addToScrapedRegistry_codes⟩

/-- C6 witness: a concrete operation sequence with repeats, run from the
fresh stores, keeps the invariant. -/
theorem C6_progress_store_invariants_witness :
    StoresInv (applyOps
      { checkpoint := freshCheckpoint "t0", registry := emptyRegistry "t0" }
      [StoreOp.proc "100-1-SE25" "t1", StoreOp.proc "100-1-SE25" "t2",
       StoreOp.fail "200-2-SE25" "err" "t3" 1,
       StoreOp.fail "200-2-SE25" "err2" "t4" 1,
       StoreOp.reg "100-1-SE25" "t5", StoreOp.reg "100-1-SE25" "t6"]) :=
  (C6_progress_store_invariants.1
    { checkpoint := freshCheckpoint "t0", registry := emptyRegistry "t0" }
    [StoreOp.proc "100-1-SE25" "t1", StoreOp.proc "100-1-SE25" "t2",
     StoreOp.fail "200-2-SE25" "err" "t3" 1,
     StoreOp.fail "200-2-SE25" "err2" "t4" 1,
     StoreOp.reg "100-1-SE25" "t5", StoreOp.reg "100-1-SE25" "t6"]
    (by
      refine ⟨⟨rfl, rfl, ?_, ?_⟩, ?_⟩
      · simp [freshCheckpoint]
      · intro cache hc
        simp [freshCheckpoint] at hc
      · simp [emptyRegistry])).1


/-- Computing `takeWhile`/`dropWhile` on a list split as a satisfying block
followed by a rest whose head fails the predicate. -/
theorem takeWhile_dropWhile_of_append {α : Type} (p : α → Bool) (d rest : List α)
    (hd : ∀ c ∈ d, p c = true)
    (hr : match rest with | [] => True | x :: _ => p x = false) :
    (d ++ rest).takeWhile p = d ∧ (d ++ rest).dropWhile p = rest := by
  induction d with
  | nil =>
      cases rest with
      | nil => simp
      | cons a t =>
          simp only [List.nil_append, List.takeWhile_cons, List.dropWhile_cons]
          simp only at hr
          simp [hr]
  | cons a d ih =>
      have hpa := hd a (by simp)
      have hih := ih (fun c hc => hd c (by simp [hc]))
      simp only [List.cons_append, List.takeWhile_cons, List.dropWhile_cons, hpa]
      simp [hih.1, hih.2]

/-- A string accepted by `isValidCode` decomposes into the regex's shape. -/
theorem shape_of_isValidCode (s : String) (h : isValidCode s = true) :
    ValidCodeShape s := by
  unfold isValidCode at h
  split at h
  case _ rest2 heq1 =>
    split at h
    case _ l1 l2 heq2 =>
      simp only [Bool.and_eq_true, decide_eq_true_eq] at h
      obtain ⟨⟨⟨⟨⟨h3, h7⟩, h1'⟩, h4⟩, hl1a, hl1b⟩, hl2a, hl2b⟩ := h
      refine ⟨s.toList.takeWhile Char.isDigit, rest2.takeWhile Char.isDigit,
        l1, l2, ?_, ?_, h3, h7, ?_, h1', h4, ⟨hl1a, hl1b⟩, ⟨hl2a, hl2b⟩⟩
      · conv_lhs => rw [← List.takeWhile_append_dropWhile
          (p := Char.isDigit) (l := s.toList)]
        rw [heq1]
        congr 1
        conv_lhs => rw [← List.takeWhile_append_dropWhile
          (p := Char.isDigit) (l := rest2)]
        rw [heq2]
      · intro c hc
        exact List.mem_takeWhile_imp hc
      · intro c hc
        exact List.mem_takeWhile_imp hc
    case _ => exact absurd h (by simp)
  case _ => exact absurd h (by simp)

/-- A string of the regex's shape is accepted by `isValidCode`. -/
theorem isValidCode_of_shape (s : String) (h : ValidCodeShape s) :
    isValidCode s = true := by
  rcases h with ⟨d1, d2, l1, l2, hs, hd1, h3, h7, hd2, h1', h4, hl1, hl2⟩
  unfold isValidCode
  rw [hs]
  have ht1 := takeWhile_dropWhile_of_append Char.isDigit d1
    ('-' :: (d2 ++ '-' :: [l1,l2,'2','5'])) hd1 (by simp)
  have ht2 := takeWhile_dropWhile_of_append Char.isDigit d2
    ('-' :: [l1,l2,'2','5']) hd2 (by simp)
  simp only [ht1.1, ht1.2, ht2.1, ht2.2]
  simp [h3, h7, h1', h4, hl1.1, hl1.2, hl2.1, hl2.2]

/-- C9 amended: `isValidCode` accepts a string iff it has the shape the
SOURCE regex `^\d{3,7}-\d{1,4}-[A-Z]{2}25$` demands — 3–7 digits, hyphen,
1–4 digits, hyphen, two uppercase letters, then the LITERAL digits `25` (not
arbitrary two digits) — and `extractUniqueCodes` silently drops any code
failing this validation: every code it returns is valid, and invalid input
rows produce no error (the function is total). -/
theorem C9_amended_validator_shape (s : String) (rows : List Purchase) :
    (isValidCode s = true ↔ ValidCodeShape s) ∧
    (extractUniqueCodes rows).all (fun c => isValidCode c) = true := by
  constructor
  · exact ⟨shape_of_isValidCode s, isValidCode_of_shape s⟩
  · rw [List.all_eq_true]
    intro c hc
    unfold extractUniqueCodes at hc
    rw [List.mem_mergeSort, List.mem_dedup, List.mem_filter] at hc
    have h2 := hc.2
    simp only [Bool.and_eq_true] at h2
    exact h2.2

end Analysis
